import Mathlib

/-!
Verification of the `bun-sql-session-store` adapter (`src/index.ts`).

The store persists serialized session payloads in one SQL table
`sessions(sid TEXT PRIMARY KEY, expires BIGINT, data TEXT, created_at BIGINT)`
and exposes `get`/`set`/`destroy`/`clear`/`length`/`touch`/`prune`, plus a
process-wide one-shot schema-initialization guard.

Shallow embedding choices:
* The table is a `List SessionRow`; the primary-key constraint on `sid` is the
  well-formedness predicate `wf` (no duplicate sids).
* Epoch-millisecond instants (`Date.now()`, `expires`, `created_at`) are `Int`.
* The serialized TEXT payload (`JSON.stringify` output) is modelled as its
  codepoint sequence, a `List Nat`; `stringify`/`parse` are a concrete
  executable codec for the session structure, with `parse` a left inverse of
  `stringify` (the contract the store relies on for its round trip).
* Each SQL statement becomes the corresponding pure list operation:
  the `SELECT ... WHERE sid = ? AND expires > ?` filter, the
  `INSERT ... ON CONFLICT (sid) DO UPDATE SET expires, data` upsert,
  the `UPDATE ... SET expires WHERE sid = ?` map, and `DELETE` filters.
* `prune`'s `try/catch` is modelled with an injected optional database fault;
  the catch swallows it (result error channel is always empty).
* The module-level initialization guard (`isInitialized` / `initPromise`)
  is a two-flag state machine stepped by constructor calls and by the
  settlement (`.then`/`.catch`) of the in-flight initialization promise.
-/

namespace BunSQLStore

/-- The cookie sub-structure of a session; the store only ever inspects
`maxAge` (`typeof session.cookie.maxAge === "number"`), modelled as
`Option Int` (`none` = absent / not a number). -/
structure Cookie where
  originalMaxAge : Option Int
  maxAge : Option Int
deriving Repr, DecidableEq

/-- A session payload: the cookie plus the rest of the session object,
opaque to the store, modelled as a blob of codepoints. -/
structure SessionData where
  cookie : Cookie
  payload : List Nat
deriving Repr, DecidableEq

/-- One persisted row of the `sessions` table. -/
structure SessionRow where
  sid : String
  expires : Int
  data : List Nat
  created_at : Int
deriving Repr, DecidableEq

/-- The `sessions` table. -/
abbrev Table := List SessionRow

/-- Primary-key constraint: `sid` identifies at most one row. -/
def wf (tbl : Table) : Prop := (tbl.map (·.sid)).Nodup

instance (tbl : Table) : Decidable (wf tbl) := by
  unfold wf; infer_instance

/-! ### Serialization (`JSON.stringify` / `JSON.parse`)

A concrete injective codec from `SessionData` into the codepoint-sequence
model of the TEXT column. -/

/-- Encode an optional integer: a tag followed by the magnitude. -/
def encIntOpt : Option Int → List Nat
  | none => [0]
  | some i => if 0 ≤ i then [1, i.toNat] else [2, i.natAbs]

/-- Decode an optional integer, returning the remaining input. -/
def decIntOpt : List Nat → Option (Option Int × List Nat)
  | 0 :: rest => some (none, rest)
  | 1 :: n :: rest => some (some (n : Int), rest)
  | 2 :: n :: rest => some (some (-(n : Int)), rest)
  | _ => none

/-- Serialize a session structure (model of `JSON.stringify(session)`). -/
def stringify (s : SessionData) : List Nat :=
  encIntOpt s.cookie.originalMaxAge ++ encIntOpt s.cookie.maxAge ++
    (s.payload.length :: s.payload)

/-- Deserialize a stored blob (model of `JSON.parse(text)`); `none` models a
thrown `SyntaxError` on malformed input. -/
def parse (l : List Nat) : Option SessionData :=
  match decIntOpt l with
  | none => none
  | some (o1, r1) =>
    match decIntOpt r1 with
    | none => none
    | some (o2, r2) =>
      match r2 with
      | [] => none
      | n :: rest => if n = rest.length then some ⟨⟨o1, o2⟩, rest⟩ else none

/-! ### Store operations -/

/-- `this.ttl = options.ttl ?? 86400` (time to live, seconds). -/
def resolveTtl (ttl : Option Int) : Int := ttl.getD 86400

/-- The expiry computed by both `set` and `touch`:
`now + (typeof cookie.maxAge === "number" ? cookie.maxAge : ttl * 1000)`. -/
def computeExpires (ttl : Int) (maxAge : Option Int) (now : Int) : Int :=
  now + (match maxAge with
         | some m => m
         | none => ttl * 1000)

/-- `SELECT data FROM sessions WHERE sid = ${sid} AND expires > ${now}`,
projected to the `data` column. -/
def selectGet (tbl : Table) (sid : String) (now : Int) : List (List Nat) :=
  (tbl.filter (fun r => decide (r.sid = sid ∧ now < r.expires))).map (·.data)

/-- `get(sid, callback)`: the table is only read; the completion is
`ok none` when no live row matches, `ok (some s)` on a successful parse of the
first matching row, and an error when `JSON.parse` throws. -/
def get (tbl : Table) (sid : String) (now : Int) :
    Table × Except String (Option SessionData) :=
  match selectGet tbl sid now with
  | [] => (tbl, .ok none)
  | d :: _ =>
    match parse d with
    | some s => (tbl, .ok (some s))
    | none => (tbl, .error "invalid JSON")

/-- `INSERT INTO sessions (sid, expires, data, created_at) VALUES (...)
ON CONFLICT (sid) DO UPDATE SET expires = EXCLUDED.expires,
data = EXCLUDED.data`. -/
def upsert (tbl : Table) (sid : String) (expires : Int) (data : List Nat)
    (createdAt : Int) : Table :=
  if tbl.any (fun r => decide (r.sid = sid)) then
    tbl.map (fun r =>
      if r.sid = sid then { r with expires := expires, data := data } else r)
  else
    tbl ++ [⟨sid, expires, data, createdAt⟩]

/-- `set(sid, session, callback)`. -/
def set (tbl : Table) (ttl : Int) (sid : String) (session : SessionData)
    (now : Int) : Table :=
  upsert tbl sid (computeExpires ttl session.cookie.maxAge now)
    (stringify session) now

/-- `DELETE FROM sessions WHERE sid = ${sid}`. -/
def destroy (tbl : Table) (sid : String) : Table :=
  tbl.filter (fun r => !decide (r.sid = sid))

/-- `DELETE FROM sessions`. -/
def clear (_tbl : Table) : Table := []

/-- `SELECT COUNT(*) FROM sessions`, then `parseInt(rows[0][0], 10) || 0`. -/
def lengthOp (tbl : Table) : Nat := tbl.length

/-- `UPDATE sessions SET expires = ${expires} WHERE sid = ${sid}`, with the
same expiry computation as `set`. -/
def touch (tbl : Table) (ttl : Int) (sid : String) (session : SessionData)
    (now : Int) : Table :=
  tbl.map (fun r =>
    if r.sid = sid then
      { r with expires := computeExpires ttl session.cookie.maxAge now }
    else r)

/-- `prune()`: `DELETE FROM sessions WHERE expires < ${now}` inside a
`try/catch` that only logs. `fault` injects a database failure; the second
component is what `prune` propagates to its caller — always nothing. -/
def prune (tbl : Table) (now : Int) (fault : Option String) :
    Table × Option String :=
  match fault with
  | some _ => (tbl, none)
  | none => (tbl.filter (fun r => !decide (r.expires < now)), none)

/-! ### Initialization guard and constructor -/

/-- The module-level guard: `isInitialized` and whether `initPromise` is
non-null. -/
structure GuardState where
  isInitialized : Bool
  initPromiseActive : Bool
deriving Repr, DecidableEq

/-- Events acting on the guard: a constructor call, and settlement of the
in-flight initialization promise (`.then` success / `.catch` failure). -/
inductive InitEvent where
  | construct
  | succeed
  | fail
deriving Repr, DecidableEq

/-- One guard transition; the boolean reports whether this event began a
schema-initialization attempt (`initPromise = this.initializeDb()...`). -/
def guardStep (s : GuardState) : InitEvent → GuardState × Bool
  | .construct =>
    if !s.isInitialized && !s.initPromiseActive then
      ({ s with initPromiseActive := true }, true)
    else (s, false)
  | .succeed => ({ s with isInitialized := true }, false)
  | .fail => ({ s with initPromiseActive := false }, false)

/-- Number of schema-initialization attempts begun along a sequence of
events. -/
def beginCount (s : GuardState) : List InitEvent → Nat
  | [] => 0
  | e :: es =>
    (if (guardStep s e).2 then 1 else 0) + beginCount (guardStep s e).1 es

/-- An error raised by the database driver during DDL;
`message` is `e.message?`. -/
structure DbError where
  message : Option String
deriving Repr, DecidableEq

/-- `e.message?.includes('already exists')`. -/
def errIsAlreadyExists (e : DbError) : Bool :=
  match e.message with
  | some m => decide (List.IsInfix "already exists".data m.data)
  | none => false

/-- `initializeDb()`: run the two DDL statements (their outcomes are `r1`,
`r2`; `none` = succeeded, `some e` = threw `e`), swallowing "already exists"
errors; the result is the error `initializeDb` rethrows, if any. The second
statement only runs when the first did not rethrow. -/
def initializeDb (r1 r2 : Option DbError) : Option DbError :=
  match r1 with
  | some e =>
    if errIsAlreadyExists e then
      match r2 with
      | some e2 => if errIsAlreadyExists e2 then none else some e2
      | none => none
    else some e
  | none =>
    match r2 with
    | some e2 => if errIsAlreadyExists e2 then none else some e2
    | none => none

/-- Settlement of the initialization promise: `.then` sets `isInitialized`;
`.catch` logs and resets `initPromise = null`. -/
def initCompletion (g : GuardState) : Option DbError → GuardState
  | none => { g with isInitialized := true }
  | some _ => { g with initPromiseActive := false }

/-- Constructor options: `db` (required, `none` models a missing/falsy
executor) and `ttl`. -/
structure StoreOptions where
  db : Option Unit
  ttl : Option Int
deriving Repr, DecidableEq

/-- `if (!options?.db) throw ...` — whether a database executor was
supplied. -/
def hasDb : Option StoreOptions → Bool
  | none => false
  | some o => o.db.isSome

/-- The synchronous body of the constructor: throws exactly when no executor
is supplied; otherwise resolves `ttl` and steps the guard, reporting whether
this construction began schema initialization. -/
def constructorStep (opts : Option StoreOptions) (g : GuardState) :
    Except String (Int × GuardState × Bool) :=
  match opts with
  | none => .error "BunSQLStore: db instance required"
  | some o =>
    match o.db with
    | none => .error "BunSQLStore: db instance required"
    | some _ =>
      let sg := guardStep g .construct
      .ok (resolveTtl o.ttl, sg.1, sg.2)

/-- Look up the (unique) row for a sid. -/
def findSid (tbl : Table) (sid : String) : Option SessionRow :=
  tbl.find? (fun r => decide (r.sid = sid))

/-- The `created_at` carried by the sid row after an upsert at instant `c`:
the pre-existing one when the row existed, else `c`. -/
def createdAfter (tbl : Table) (sid : String) (c : Int) : Int :=
  match findSid tbl sid with
  | some r => r.created_at
  | none => c

/-! ### Codec round trip -/

theorem decIntOpt_encIntOpt (o : Option Int) (t : List Nat) :
    decIntOpt (encIntOpt o ++ t) = some (o, t) := by
  match o with
  | none => rfl
  | some i =>
    by_cases h : 0 ≤ i
    · simp [encIntOpt, h, decIntOpt, Int.toNat_of_nonneg h]
    · simp [encIntOpt, h, decIntOpt]
      rw [abs_of_nonpos (by omega), neg_neg]

/-- The codec round trip: `parse` is a left inverse of `stringify`. -/
theorem parse_stringify (s : SessionData) : parse (stringify s) = some s := by
  simp [stringify, parse, List.append_assoc, decIntOpt_encIntOpt]

/-! ### Key-uniqueness helper lemmas -/

theorem filterSid_eq_nil (tbl : Table) (sid : String)
    (h : ∀ r ∈ tbl, r.sid ≠ sid) :
    tbl.filter (fun r => decide (r.sid = sid)) = [] := by
  induction tbl with
  | nil => rfl
  | cons r rest ih =>
    have hr := h r (by simp)
    simp only [List.filter_cons, decide_eq_true_eq]
    rw [if_neg (by simpa using hr)]
    exact ih (fun r' hr' => h r' (by simp [hr']))

theorem map_update_eq_self (tbl : Table) (sid : String)
    (g : SessionRow → SessionRow) (h : sid ∉ tbl.map (·.sid)) :
    tbl.map (fun r => if r.sid = sid then g r else r) = tbl := by
  induction tbl with
  | nil => rfl
  | cons r rest ih =>
    simp only [List.map_cons, List.map, List.mem_cons] at h ⊢
    push_neg at h
    rw [if_neg (fun hc => h.1 hc.symm), ih (by simpa using h.2)]

theorem sids_map_of_sid_preserving (f : SessionRow → SessionRow)
    (hf : ∀ r, (f r).sid = r.sid) (tbl : Table) :
    (tbl.map f).map (·.sid) = tbl.map (·.sid) := by
  induction tbl with
  | nil => rfl
  | cons r rest ih => simp [hf, ih]

theorem wf_map_of_sid_preserving (f : SessionRow → SessionRow)
    (hf : ∀ r, (f r).sid = r.sid) (tbl : Table) (hwf : wf tbl) :
    wf (tbl.map f) := by
  unfold wf at hwf ⊢
  rwa [sids_map_of_sid_preserving f hf tbl]

theorem filterSid_map_update (sid : String) (g : SessionRow → SessionRow)
    (hg : ∀ r, (g r).sid = r.sid) :
    ∀ (tbl : Table), wf tbl → ∀ r0, findSid tbl sid = some r0 →
    (tbl.map (fun r => if r.sid = sid then g r else r)).filter
      (fun r => decide (r.sid = sid)) =
    [g r0] := by
  intro tbl
  induction tbl with
  | nil => intro _ r0 h; simp [findSid] at h
  | cons r rest ih =>
    intro hwf r0 h
    have hwf' : wf rest := by
      unfold wf at hwf ⊢; exact (List.nodup_cons.mp hwf).2
    have hnot : r.sid ∉ rest.map (·.sid) := by
      unfold wf at hwf; exact (List.nodup_cons.mp hwf).1
    by_cases hr : r.sid = sid
    · rw [findSid, List.find?_cons_of_pos _ (by simp [hr])] at h
      have hr0 := Option.some.inj h
      subst hr0
      have hrest : ∀ r' ∈ rest, r'.sid ≠ sid := by
        intro r' hr' hc
        exact hnot (by rw [hr]; exact hc ▸ List.mem_map_of_mem (·.sid) hr')
      have hsidnot : sid ∉ rest.map (·.sid) := by
        intro hc
        obtain ⟨r', hr', hc2⟩ := List.mem_map.mp hc
        exact hrest r' hr' hc2
      simp only [List.map_cons, if_pos hr, List.filter_cons]
      rw [map_update_eq_self rest sid g hsidnot,
        filterSid_eq_nil rest sid hrest]
      simp [hg, hr]
    · rw [findSid, List.find?_cons_of_neg _ (by simp [hr])] at h
      simp only [List.map_cons, if_neg hr, List.filter_cons]
      rw [if_neg (by simp [hr])]
      exact ih hwf' r0 h

theorem findSid_eq_none (tbl : Table) (sid : String)
    (h : ∀ r ∈ tbl, r.sid ≠ sid) : findSid tbl sid = none := by
  unfold findSid
  exact List.find?_eq_none.mpr (by simpa using h)

theorem sid_eq_of_findSid (tbl : Table) (sid : String) (r0 : SessionRow)
    (h : findSid tbl sid = some r0) : r0.sid = sid := by
  unfold findSid at h
  have hp := List.find?_some h
  simp only [decide_eq_true_eq] at hp
  exact hp

theorem mem_of_findSid (tbl : Table) (sid : String) (r0 : SessionRow)
    (h : findSid tbl sid = some r0) : r0 ∈ tbl :=
  List.mem_of_find?_eq_some h

/-- The filtered view of the table right after an upsert: exactly one row for
the sid, carrying the new `expires` and `data` and the preserved (or fresh)
`created_at`. -/
theorem filterSid_upsert (tbl : Table) (sid : String) (e : Int)
    (d : List Nat) (c : Int) (hwf : wf tbl) :
    (upsert tbl sid e d c).filter (fun r => decide (r.sid = sid)) =
      [⟨sid, e, d, createdAfter tbl sid c⟩] := by
  unfold upsert
  by_cases hany : tbl.any (fun r => decide (r.sid = sid)) = true
  · rw [if_pos hany]
    obtain ⟨r1, hr1, hr1s⟩ : ∃ r ∈ tbl, r.sid = sid := by simpa using hany
    cases hfind : findSid tbl sid with
    | none =>
      have hne : ∀ x ∈ tbl, ¬x.sid = sid := by simpa [findSid] using hfind
      exact absurd hr1s (hne r1 hr1)
    | some r0 =>
      rw [filterSid_map_update sid
        (fun r => { r with expires := e, data := d }) (fun _ => rfl)
        tbl hwf r0 hfind]
      have hs := sid_eq_of_findSid tbl sid r0 hfind
      unfold createdAfter
      rw [hfind]
      cases r0
      simp_all
  · rw [if_neg hany]
    have hnone : ∀ r ∈ tbl, r.sid ≠ sid := by simpa using hany
    rw [List.filter_append, filterSid_eq_nil tbl sid hnone]
    unfold createdAfter
    rw [findSid_eq_none tbl sid hnone]
    simp

/-- A row for a different sid that survives an upsert was already there. -/
theorem mem_upsert_of_ne (tbl : Table) (sid : String) (e : Int)
    (d : List Nat) (c : Int) (r : SessionRow)
    (hr : r ∈ upsert tbl sid e d c) (hne : r.sid ≠ sid) : r ∈ tbl := by
  unfold upsert at hr
  split at hr
  · obtain ⟨r0, hr0, hupd⟩ := List.mem_map.mp hr
    by_cases h0 : r0.sid = sid
    · rw [if_pos h0] at hupd
      exact absurd (hupd ▸ h0) hne
    · rw [if_neg h0] at hupd
      exact hupd ▸ hr0
  · rcases List.mem_append.mp hr with h | h
    · exact h
    · simp only [List.mem_singleton] at h
      exact absurd (congrArg SessionRow.sid h) hne

theorem wf_upsert (tbl : Table) (sid : String) (e : Int) (d : List Nat)
    (c : Int) (hwf : wf tbl) : wf (upsert tbl sid e d c) := by
  unfold upsert
  by_cases hany : tbl.any (fun r => decide (r.sid = sid)) = true
  · rw [if_pos hany]
    exact wf_map_of_sid_preserving _
      (fun r => by by_cases h : r.sid = sid <;> simp [h]) tbl hwf
  · rw [if_neg hany]
    have hnone : ∀ r ∈ tbl, r.sid ≠ sid := by simpa using hany
    unfold wf at hwf ⊢
    rw [List.map_append, List.nodup_append]
    refine ⟨hwf, by simp, ?_⟩
    intro s hs hs'
    simp only [List.map_cons, List.map_nil, List.mem_singleton] at hs'
    subst hs'
    obtain ⟨r, hr, hrs⟩ := List.mem_map.mp hs
    exact hnone r hr hrs

theorem wf_set (tbl : Table) (ttl : Int) (sid : String) (p : SessionData)
    (now : Int) (hwf : wf tbl) : wf (set tbl ttl sid p now) :=
  wf_upsert tbl sid _ _ now hwf

theorem wf_touch (tbl : Table) (ttl : Int) (sid : String) (p : SessionData)
    (now : Int) (hwf : wf tbl) : wf (touch tbl ttl sid p now) :=
  wf_map_of_sid_preserving _
    (fun r => by by_cases h : r.sid = sid <;> simp [h]) tbl hwf

/-- The `WHERE sid = ? AND expires > ?` clause splits into the key filter
followed by the expiry filter. -/
theorem selectGet_eq (tbl : Table) (sid : String) (now : Int) :
    selectGet tbl sid now =
      ((tbl.filter (fun r => decide (r.sid = sid))).filter
        (fun r => decide (now < r.expires))).map (·.data) := by
  unfold selectGet
  rw [List.filter_filter]
  congr 1
  apply List.filter_congr
  intro r _
  simp [Bool.and_comm]

/-- After `set`, the live-row query for that sid sees exactly the freshly
serialized payload (when unexpired) and nothing otherwise. -/
theorem selectGet_set (tbl : Table) (ttl : Int) (sid : String)
    (p : SessionData) (now now' : Int) (hwf : wf tbl) :
    selectGet (set tbl ttl sid p now) sid now' =
      if now' < computeExpires ttl p.cookie.maxAge now
      then [stringify p] else [] := by
  rw [selectGet_eq]
  have h := filterSid_upsert tbl sid
    (computeExpires ttl p.cookie.maxAge now) (stringify p) now hwf
  rw [show set tbl ttl sid p now = upsert tbl sid
    (computeExpires ttl p.cookie.maxAge now) (stringify p) now from rfl, h]
  by_cases hlive : now' < computeExpires ttl p.cookie.maxAge now <;>
    simp [List.filter_cons, hlive]

/-- `set` then `get` before expiry: the table is untouched by the read and
the stored payload round-trips. -/
theorem get_set_of_live (tbl : Table) (ttl : Int) (sid : String)
    (p : SessionData) (now now' : Int) (hwf : wf tbl)
    (hlive : now' < computeExpires ttl p.cookie.maxAge now) :
    get (set tbl ttl sid p now) sid now' =
      (set tbl ttl sid p now, Except.ok (some p)) := by
  unfold get
  rw [selectGet_set tbl ttl sid p now now' hwf, if_pos hlive]
  simp [parse_stringify]

theorem length_filter_add_length_filter_not (p : SessionRow → Bool) :
    ∀ tbl : Table,
      (tbl.filter p).length + (tbl.filter (fun r => !p r)).length =
        tbl.length := by
  intro tbl
  induction tbl with
  | nil => rfl
  | cons r rest ih =>
    by_cases h : p r = true <;>
      simp [List.filter_cons, h, ih] <;> omega

theorem findSid_eq_head_filter (tbl : Table) (sid : String) :
    findSid tbl sid = (tbl.filter (fun r => decide (r.sid = sid))).head? := by
  induction tbl with
  | nil => rfl
  | cons r rest ih =>
    by_cases hr : r.sid = sid
    · simp [findSid, List.find?_cons, List.filter_cons, hr]
    · simp [findSid, List.find?_cons, List.filter_cons, hr]

/-- The sid row left by a `set` carries exactly the computed expiry. -/
theorem expires_of_mem_set (tbl : Table) (ttl : Int) (sid : String)
    (p : SessionData) (now : Int) (hwf : wf tbl) :
    ∀ r ∈ set tbl ttl sid p now, r.sid = sid →
      r.expires = computeExpires ttl p.cookie.maxAge now := by
  intro r hr hrs
  have hflt : (set tbl ttl sid p now).filter (fun r => decide (r.sid = sid)) =
      [⟨sid, computeExpires ttl p.cookie.maxAge now, stringify p,
        createdAfter tbl sid now⟩] :=
    filterSid_upsert tbl sid _ _ now hwf
  have hmem : r ∈ (set tbl ttl sid p now).filter
      (fun r => decide (r.sid = sid)) :=
    List.mem_filter.mpr ⟨hr, by simp [hrs]⟩
  rw [hflt] at hmem
  simp only [List.mem_singleton] at hmem
  subst hmem
  rfl

/-! ### Claim theorems -/

/-- **C1**: for every sid `s` and session payload `p` whose expiry has not
yet elapsed, `set(s, p)` followed by `get(s)` completes with no error, no
table change, and a payload structurally equal to `p`: the
serialize-store-select-deserialize round trip is the identity. -/
theorem c1_set_get_roundtrip (tbl : Table) (ttl : Int) (sid : String)
    (p : SessionData) (now now' : Int) (hwf : wf tbl)
    (hlive : now' < computeExpires ttl p.cookie.maxAge now) :
    get (set tbl ttl sid p now) sid now' =
      (set tbl ttl sid p now, Except.ok (some p)) :=
  get_set_of_live tbl ttl sid p now now' hwf hlive

theorem c1_set_get_roundtrip_witness :
    wf ([] : Table) ∧
    (500 : Int) < computeExpires 1 (some 1000) 0 ∧
    get (set [] 1 "abc" ⟨⟨none, some 1000⟩, [120]⟩ 0) "abc" 500 =
      (set [] 1 "abc" ⟨⟨none, some 1000⟩, [120]⟩ 0,
        Except.ok (some ⟨⟨none, some 1000⟩, [120]⟩)) :=
  ⟨by decide, by decide,
    c1_set_get_roundtrip [] 1 "abc" ⟨⟨none, some 1000⟩, [120]⟩ 0 500
      (by decide) (by decide)⟩

/-- **C2**: `get` never mutates the table; it completes successfully with an
absent result whenever no row for the sid is strictly unexpired, and any
payload it returns comes from a row with `expires` strictly greater than the
query instant — expiry is a query-time filter, with no deletion. -/
theorem c2_get_expiry_filter (tbl : Table) (sid : String) (now : Int) :
    (get tbl sid now).1 = tbl ∧
    ((∀ r ∈ tbl, r.sid = sid → r.expires ≤ now) →
      (get tbl sid now).2 = Except.ok none) ∧
    (∀ p, (get tbl sid now).2 = Except.ok (some p) →
      ∃ r ∈ tbl, r.sid = sid ∧ now < r.expires ∧ parse r.data = some p) := by
  refine ⟨?_, ?_, ?_⟩
  · unfold get
    cases selectGet tbl sid now with
    | nil => rfl
    | cons d rest => cases hparse : parse d <;> simp [hparse]
  · intro h
    have hsel : selectGet tbl sid now = [] := by
      unfold selectGet
      rw [List.filter_eq_nil_iff.mpr ?_, List.map_nil]
      intro r hr
      simp only [decide_eq_true_eq, not_and]
      intro hrs
      exact not_lt.mpr (h r hr hrs)
    simp [get, hsel]
  · intro p hp
    unfold get at hp
    cases hsel : selectGet tbl sid now with
    | nil => rw [hsel] at hp; exact absurd hp (by simp)
    | cons d rest =>
      rw [hsel] at hp
      cases hparse : parse d with
      | none => simp [hparse] at hp
      | some s =>
        simp only [hparse] at hp
        have hs : s = p := by simpa using hp
        subst hs
        have hd : d ∈ selectGet tbl sid now := by simp [hsel]
        obtain ⟨r, ⟨hrtbl, hrs, hre⟩, hrd⟩ :
            ∃ a, (a ∈ tbl ∧ a.sid = sid ∧ now < a.expires) ∧ a.data = d := by
          simpa [selectGet] using hd
        exact ⟨r, hrtbl, hrs, hre, hrd ▸ hparse⟩

theorem c2_get_expiry_filter_witness :
    (∀ r ∈ [SessionRow.mk "abc" 5 [0] 0], r.sid = "abc" → r.expires ≤ 7) ∧
    (get [SessionRow.mk "abc" 5 [0] 0] "abc" 7).2 = Except.ok none :=
  ⟨by decide,
    (c2_get_expiry_filter [SessionRow.mk "abc" 5 [0] 0] "abc" 7).2.1
      (by decide)⟩

/-- **C3**: the expiry stored by `set` is `now + cookie.maxAge` when
`maxAge` is numeric, else `now + ttl * 1000`, where the constructor's `ttl`
defaults to 86400 seconds when the option is omitted. -/
theorem c3_set_expires (tbl : Table) (ttlOpt : Option Int) (sid : String)
    (p : SessionData) (now : Int) (hwf : wf tbl) :
    (∀ r ∈ set tbl (resolveTtl ttlOpt) sid p now, r.sid = sid →
      r.expires = now + (match p.cookie.maxAge with
                         | some m => m
                         | none => resolveTtl ttlOpt * 1000)) ∧
    resolveTtl none = 86400 := by
  refine ⟨?_, rfl⟩
  intro r hr hrs
  exact expires_of_mem_set tbl (resolveTtl ttlOpt) sid p now hwf r hr hrs

theorem c3_set_expires_witness :
    wf ([] : Table) ∧
    (∀ r ∈ set [] (resolveTtl none) "abc" ⟨⟨none, none⟩, []⟩ 10, r.sid = "abc" →
      r.expires = 10 + 86400 * 1000) :=
  ⟨by decide,
    (c3_set_expires [] none "abc" ⟨⟨none, none⟩, []⟩ 10 (by decide)).1⟩

/-- **C9**: `length` reports the physical row count of the table — live rows
plus expired-but-not-yet-pruned rows. -/
theorem c9_length_counts_expired (tbl : Table) (now : Int) :
    lengthOp tbl = tbl.length ∧
    lengthOp tbl =
      (tbl.filter (fun r => decide (now < r.expires))).length +
      (tbl.filter (fun r => decide (r.expires ≤ now))).length := by
  refine ⟨rfl, ?_⟩
  have h := length_filter_add_length_filter_not
    (fun r => decide (now < r.expires)) tbl
  have h2 : List.filter (fun r => !decide (now < r.expires)) tbl =
      List.filter (fun r => decide (r.expires ≤ now)) tbl := by
    apply List.filter_congr
    intro r _
    by_cases hc : now < r.expires
    · have hn : ¬r.expires ≤ now := not_le.mpr hc
      simp [hc, hn]
    · have hy : r.expires ≤ now := le_of_not_lt hc
      simp [hc, hy]
  rw [lengthOp, ← h, h2]

/-- **C4**: a second `set` for a sid that already has a row upserts in
place: exactly one row for the sid remains, carrying the new `data` and
`expires` but the `created_at` written by the first insert; rows for other
sids are untouched; an unexpired `get` then returns the second payload. -/
theorem c4_set_set_upsert (tbl : Table) (ttl : Int) (sid : String)
    (p1 p2 : SessionData) (now1 now2 now3 : Int) (hwf : wf tbl)
    (habs : ∀ r ∈ tbl, r.sid ≠ sid) :
    ((set (set tbl ttl sid p1 now1) ttl sid p2 now2).filter
        (fun r => decide (r.sid = sid))).length = 1 ∧
    (∀ r ∈ set (set tbl ttl sid p1 now1) ttl sid p2 now2, r.sid = sid →
      r.created_at = now1 ∧ r.data = stringify p2 ∧
      r.expires = computeExpires ttl p2.cookie.maxAge now2) ∧
    (∀ r ∈ set (set tbl ttl sid p1 now1) ttl sid p2 now2, r.sid ≠ sid →
      r ∈ tbl) ∧
    (now3 < computeExpires ttl p2.cookie.maxAge now2 →
      (get (set (set tbl ttl sid p1 now1) ttl sid p2 now2) sid now3).2 =
        Except.ok (some p2)) := by
  have hwf1 : wf (set tbl ttl sid p1 now1) := wf_set tbl ttl sid p1 now1 hwf
  have hca : createdAfter tbl sid now1 = now1 := by
    unfold createdAfter
    rw [findSid_eq_none tbl sid habs]
  have hflt1 : (set tbl ttl sid p1 now1).filter
      (fun r => decide (r.sid = sid)) =
      [⟨sid, computeExpires ttl p1.cookie.maxAge now1, stringify p1,
        createdAfter tbl sid now1⟩] :=
    filterSid_upsert tbl sid _ _ now1 hwf
  have hca1 : createdAfter (set tbl ttl sid p1 now1) sid now2 = now1 := by
    unfold createdAfter
    rw [findSid_eq_head_filter, hflt1]
    simp [hca]
  have hflt2 : (set (set tbl ttl sid p1 now1) ttl sid p2 now2).filter
      (fun r => decide (r.sid = sid)) =
      [⟨sid, computeExpires ttl p2.cookie.maxAge now2, stringify p2,
        createdAfter (set tbl ttl sid p1 now1) sid now2⟩] :=
    filterSid_upsert (set tbl ttl sid p1 now1) sid _ _ now2 hwf1
  rw [hca1] at hflt2
  refine ⟨?_, ?_, ?_, ?_⟩
  · rw [hflt2]
    rfl
  · intro r hr hrs
    have hmem : r ∈ (set (set tbl ttl sid p1 now1) ttl sid p2 now2).filter
        (fun r => decide (r.sid = sid)) :=
      List.mem_filter.mpr ⟨hr, by simp [hrs]⟩
    rw [hflt2] at hmem
    simp only [List.mem_singleton] at hmem
    subst hmem
    exact ⟨rfl, rfl, rfl⟩
  · intro r hr hne
    exact mem_upsert_of_ne tbl sid
      (computeExpires ttl p1.cookie.maxAge now1) (stringify p1) now1 r
      (mem_upsert_of_ne (set tbl ttl sid p1 now1) sid
        (computeExpires ttl p2.cookie.maxAge now2) (stringify p2) now2 r
        hr hne) hne
  · intro hlive
    rw [get_set_of_live (set tbl ttl sid p1 now1) ttl sid p2 now2 now3
      hwf1 hlive]

theorem c4_set_set_upsert_witness :
    wf ([] : Table) ∧
    (∀ r ∈ ([] : Table), r.sid ≠ "abc") ∧
    (∀ r ∈ set (set [] 7 "abc" ⟨⟨none, some 10⟩, [1]⟩ 0) 7 "abc"
        ⟨⟨none, some 20⟩, [2]⟩ 3, r.sid = "abc" →
      r.created_at = 0 ∧ r.data = stringify ⟨⟨none, some 20⟩, [2]⟩ ∧
      r.expires = computeExpires 7 (some 20) 3) :=
  ⟨by decide, by decide,
    (c4_set_set_upsert [] 7 "abc" ⟨⟨none, some 10⟩, [1]⟩ ⟨⟨none, some 20⟩, [2]⟩
      0 3 0 (by decide) (by decide)).2.1⟩

/-- **C5**: `touch` computes the expiry exactly as `set` does and mutates
only the `expires` of the sid's row: every other row, and the `data` and
`created_at` of the touched row, are unchanged; with no matching row it is
a complete no-op that still succeeds. -/
theorem c5_touch_frame (tbl : Table) (ttl : Int) (sid : String)
    (p : SessionData) (now : Int) (hwf : wf tbl) :
    (touch tbl ttl sid p now).length = tbl.length ∧
    (∀ r ∈ tbl, r.sid ≠ sid → r ∈ touch tbl ttl sid p now) ∧
    (∀ r ∈ touch tbl ttl sid p now, r.sid ≠ sid → r ∈ tbl) ∧
    (∀ r ∈ tbl, r.sid = sid →
      { r with expires := computeExpires ttl p.cookie.maxAge now } ∈
        touch tbl ttl sid p now) ∧
    (∀ r' ∈ touch tbl ttl sid p now, r'.sid = sid →
      ∃ r ∈ tbl, r.sid = sid ∧
        r' = { r with expires := computeExpires ttl p.cookie.maxAge now }) ∧
    ((∀ r ∈ tbl, r.sid ≠ sid) → touch tbl ttl sid p now = tbl) ∧
    (∀ r' ∈ touch tbl ttl sid p now, r'.sid = sid →
      ∀ r'' ∈ set tbl ttl sid p now, r''.sid = sid →
        r'.expires = r''.expires) := by
  refine ⟨List.length_map _ _, ?_, ?_, ?_, ?_, ?_, ?_⟩
  · intro r hr hne
    have := List.mem_map_of_mem
      (fun r => if r.sid = sid then
        { r with expires := computeExpires ttl p.cookie.maxAge now }
      else r) hr
    simpa [touch, if_neg hne] using this
  · intro r hr hne
    obtain ⟨r0, hr0, hupd⟩ := List.mem_map.mp hr
    by_cases h0 : r0.sid = sid
    · rw [if_pos h0] at hupd
      exact absurd (hupd ▸ h0) hne
    · rw [if_neg h0] at hupd
      exact hupd ▸ hr0
  · intro r hr hrs
    have := List.mem_map_of_mem
      (fun r => if r.sid = sid then
        { r with expires := computeExpires ttl p.cookie.maxAge now }
      else r) hr
    simpa [touch, if_pos hrs] using this
  · intro r' hr' hrs
    obtain ⟨r0, hr0, hupd⟩ := List.mem_map.mp hr'
    by_cases h0 : r0.sid = sid
    · rw [if_pos h0] at hupd
      exact ⟨r0, hr0, h0, hupd.symm⟩
    · rw [if_neg h0] at hupd
      exact absurd (hupd ▸ hrs) h0
  · intro h
    apply map_update_eq_self
    intro hc
    obtain ⟨r, hr, hrs⟩ := List.mem_map.mp hc
    exact h r hr hrs
  · intro r' hr' hrs r'' hr'' hrs'
    obtain ⟨r0, hr0, hupd⟩ := List.mem_map.mp hr'
    have hexp' : r'.expires = computeExpires ttl p.cookie.maxAge now := by
      by_cases h0 : r0.sid = sid
      · rw [if_pos h0] at hupd
        rw [← hupd]
      · rw [if_neg h0] at hupd
        exact absurd (hupd ▸ hrs) h0
    rw [hexp', expires_of_mem_set tbl ttl sid p now hwf r'' hr'' hrs']

theorem c5_touch_frame_witness :
    wf [SessionRow.mk "abc" 10 [0] 0] ∧
    (∀ r ∈ [SessionRow.mk "abc" 10 [0] 0], r.sid ≠ "zzz") ∧
    touch [SessionRow.mk "abc" 10 [0] 0] 7 "zzz" ⟨⟨none, none⟩, []⟩ 5 =
      [SessionRow.mk "abc" 10 [0] 0] :=
  ⟨by decide, by decide,
    (c5_touch_frame [SessionRow.mk "abc" 10 [0] 0] 7 "zzz" ⟨⟨none, none⟩, []⟩
      5 (by decide)).2.2.2.2.2.1 (by decide)⟩

/-- **C6**: `prune` deletes exactly the rows with `expires` strictly below
the call instant, keeps every other row (including those with
`expires = now`), and never propagates an error to any caller — even when
the underlying delete fails. -/
theorem c6_prune_spec (tbl : Table) (now : Int) (fault : Option String) :
    ((prune tbl now fault).2 = none) ∧
    (∀ r ∈ (prune tbl now none).1, r ∈ tbl ∧ now ≤ r.expires) ∧
    (∀ r ∈ tbl, now ≤ r.expires → r ∈ (prune tbl now none).1) ∧
    ((prune tbl now none).1.length +
      (tbl.filter (fun r => decide (r.expires < now))).length =
        tbl.length) := by
  refine ⟨?_, ?_, ?_, ?_⟩
  · cases fault <;> rfl
  · intro r hr
    have hm := List.mem_filter.mp
      (show r ∈ tbl.filter (fun r => !decide (r.expires < now)) from hr)
    refine ⟨hm.1, ?_⟩
    have hb := hm.2
    simp only [Bool.not_eq_true', decide_eq_false_iff_not, not_lt] at hb
    exact hb
  · intro r hr h
    show r ∈ tbl.filter (fun r => !decide (r.expires < now))
    refine List.mem_filter.mpr ⟨hr, ?_⟩
    simpa using not_lt.mpr h
  · have h := length_filter_add_length_filter_not
      (fun r => decide (r.expires < now)) tbl
    show (tbl.filter (fun r => !decide (r.expires < now))).length + _ = _
    omega

theorem c6_prune_spec_witness :
    SessionRow.mk "b" 10 [] 0 ∈
      (prune [SessionRow.mk "a" 3 [] 0, SessionRow.mk "b" 10 [] 0]
        5 none).1 :=
  (c6_prune_spec [SessionRow.mk "a" 3 [] 0, SessionRow.mk "b" 10 [] 0]
    5 none).2.2.1 (SessionRow.mk "b" 10 [] 0) (by decide) (by decide)

theorem findSid_of_mem (tbl : Table) (sid : String) (r : SessionRow)
    (hwf : wf tbl) (hr : r ∈ tbl) (hrs : r.sid = sid) :
    findSid tbl sid = some r := by
  induction tbl with
  | nil => cases hr
  | cons a rest ih =>
    rw [wf, List.map_cons, List.nodup_cons] at hwf
    rcases List.mem_cons.mp hr with h | h
    · subst h
      rw [findSid, List.find?_cons_of_pos _ (by simp [hrs])]
    · by_cases ha : a.sid = sid
      · exact absurd (ha ▸ hrs ▸ List.mem_map_of_mem (·.sid) h) hwf.1
      · rw [findSid, List.find?_cons_of_neg _ (by simp [ha])]
        exact ih hwf.2 h

/-- **C10**: `touch` on an expired-but-unpruned row (with a positive numeric
`cookie.maxAge`) sets its `expires` to `now + maxAge` and revives the
session: a subsequent `get` returns the previously stored payload again. -/
theorem c10_touch_revives (tbl : Table) (ttl : Int) (sid : String)
    (p q : SessionData) (m now : Int) (r : SessionRow) (hwf : wf tbl)
    (hr : r ∈ tbl) (hsid : r.sid = sid) (_hexp : r.expires ≤ now)
    (hdata : r.data = stringify q) (hma : p.cookie.maxAge = some m)
    (hpos : 0 < m) :
    (∀ r' ∈ touch tbl ttl sid p now, r'.sid = sid →
      r'.expires = now + m) ∧
    (get (touch tbl ttl sid p now) sid now).2 = Except.ok (some q) := by
  have he : computeExpires ttl p.cookie.maxAge now = now + m := by
    simp [computeExpires, hma]
  have hfind := findSid_of_mem tbl sid r hwf hr hsid
  have hflt : (touch tbl ttl sid p now).filter
      (fun r => decide (r.sid = sid)) =
      [{ r with expires := computeExpires ttl p.cookie.maxAge now }] :=
    filterSid_map_update sid
      (fun r => { r with expires := computeExpires ttl p.cookie.maxAge now })
      (fun _ => rfl) tbl hwf r hfind
  refine ⟨?_, ?_⟩
  · intro r' hr' hrs
    have hmem : r' ∈ (touch tbl ttl sid p now).filter
        (fun r => decide (r.sid = sid)) :=
      List.mem_filter.mpr ⟨hr', by simp [hrs]⟩
    rw [hflt] at hmem
    simp only [List.mem_singleton] at hmem
    subst hmem
    exact he
  · have hlt : now < now + m := by omega
    have hsel : selectGet (touch tbl ttl sid p now) sid now = [r.data] := by
      rw [selectGet_eq, hflt]
      simp [List.filter_cons, he, hlt]
    unfold get
    rw [hsel]
    simp [hdata, parse_stringify]

theorem c10_touch_revives_witness :
    (get (touch [SessionRow.mk "abc" 4 (stringify ⟨⟨none, none⟩, [9]⟩) 0]
        7 "abc" ⟨⟨none, some 1000⟩, []⟩ 5) "abc" 5).2 =
      Except.ok (some ⟨⟨none, none⟩, [9]⟩) :=
  (c10_touch_revives [SessionRow.mk "abc" 4 (stringify ⟨⟨none, none⟩, [9]⟩) 0]
    7 "abc" ⟨⟨none, some 1000⟩, []⟩ ⟨⟨none, none⟩, [9]⟩ 1000 5
    (SessionRow.mk "abc" 4 (stringify ⟨⟨none, none⟩, [9]⟩) 0)
    (by decide) (by decide) (by decide) (by decide) (by decide) rfl
    (by decide)).2

theorem guardStep_preserves_init (s : GuardState) (e : InitEvent)
    (h : s.isInitialized = true) : (guardStep s e).1.isInitialized = true := by
  cases e <;> simp [guardStep, h]

theorem beginCount_zero_of_init (evs : List InitEvent) :
    ∀ s : GuardState, s.isInitialized = true → beginCount s evs = 0 := by
  induction evs with
  | nil => intro s _; rfl
  | cons e es ih =>
    intro s h
    have h1 : (guardStep s e).2 = false := by
      cases e <;> simp [guardStep, h]
    rw [beginCount, h1, ih _ (guardStep_preserves_init s e h)]
    simp

theorem beginCount_zero_of_active (evs : List InitEvent) :
    ∀ s : GuardState,
      s.isInitialized = true ∨ s.initPromiseActive = true →
      InitEvent.fail ∉ evs → beginCount s evs = 0 := by
  induction evs with
  | nil => intro s _ _; rfl
  | cons e es ih =>
    intro s h hf
    have hf1 : e ≠ InitEvent.fail ∧ InitEvent.fail ∉ es := by
      constructor
      · intro hc; exact hf (hc ▸ List.mem_cons_self e es)
      · intro hc; exact hf (List.mem_cons_of_mem e hc)
    cases e with
    | construct =>
      have hcond : (!s.isInitialized && !s.initPromiseActive) = false := by
        rcases h with h | h <;> simp [h]
      have hstep : guardStep s InitEvent.construct = (s, false) := by
        simp [guardStep, hcond]
      rw [beginCount, hstep]
      simpa using ih s h hf1.2
    | succeed =>
      have hstep : guardStep s InitEvent.succeed =
          ({ s with isInitialized := true }, false) := rfl
      rw [beginCount, hstep]
      simpa using ih { s with isInitialized := true } (Or.inl rfl) hf1.2
    | fail => exact absurd rfl hf1.1

theorem beginCount_le_one (evs : List InitEvent) :
    ∀ s : GuardState, InitEvent.fail ∉ evs → beginCount s evs ≤ 1 := by
  induction evs with
  | nil => intro s _; exact Nat.zero_le 1
  | cons e es ih =>
    intro s hf
    have hf1 : e ≠ InitEvent.fail ∧ InitEvent.fail ∉ es := by
      constructor
      · intro hc; exact hf (hc ▸ List.mem_cons_self e es)
      · intro hc; exact hf (List.mem_cons_of_mem e hc)
    cases e with
    | construct =>
      by_cases hc : (!s.isInitialized && !s.initPromiseActive) = true
      · have hstep : guardStep s InitEvent.construct =
            ({ s with initPromiseActive := true }, true) := by
          simp [guardStep, hc]
        have h0 : beginCount { s with initPromiseActive := true } es = 0 :=
          beginCount_zero_of_active es _ (Or.inr rfl) hf1.2
        rw [beginCount, hstep]
        simp [h0]
      · have hc' : (!s.isInitialized && !s.initPromiseActive) = false := by
          simpa using hc
        have hstep : guardStep s InitEvent.construct = (s, false) := by
          simp [guardStep, hc']
        rw [beginCount, hstep]
        simpa using ih s hf1.2
    | succeed =>
      have hstep : guardStep s InitEvent.succeed =
          ({ s with isInitialized := true }, false) := rfl
      have h0 : beginCount { s with isInitialized := true } es = 0 :=
        beginCount_zero_of_init es _ rfl
      rw [beginCount, hstep]
      simp [h0]
    | fail => exact absurd rfl hf1.1

/-- **C7**: along any sequence of constructor calls and promise settlements,
schema initialization is begun at most once per fail-free stretch (so at
most once while no attempt has failed, and at most once after each failed
attempt), never while one is in flight, and never again once an
initialization has completed. -/
theorem c7_init_guard (evs : List InitEvent) (s : GuardState) :
    (InitEvent.fail ∉ evs → beginCount s evs ≤ 1) ∧
    (s.isInitialized = true ∨ s.initPromiseActive = true →
      InitEvent.fail ∉ evs → beginCount s evs = 0) ∧
    (s.isInitialized = true → beginCount s evs = 0) :=
  ⟨fun hf => beginCount_le_one evs s hf,
   fun h hf => beginCount_zero_of_active evs s h hf,
   fun h => beginCount_zero_of_init evs s h⟩

theorem c7_init_guard_witness :
    InitEvent.fail ∉
      [InitEvent.construct, InitEvent.construct, InitEvent.succeed,
        InitEvent.construct] ∧
    beginCount ⟨false, false⟩
      [InitEvent.construct, InitEvent.construct, InitEvent.succeed,
        InitEvent.construct] ≤ 1 :=
  ⟨by decide,
    (c7_init_guard
      [InitEvent.construct, InitEvent.construct, InitEvent.succeed,
        InitEvent.construct] ⟨false, false⟩).1 (by decide)⟩

/-- **C8**: the constructor throws exactly when no database executor is
supplied; an asynchronous initialization failure (necessarily a
non-"already exists" error, since those are swallowed) never surfaces: it
only clears the in-flight marker, leaving `isInitialized` untouched, so the
next construction retries initialization. -/
theorem c8_constructor_errors (opts : Option StoreOptions) (g : GuardState)
    (e : DbError) (r1 r2 : Option DbError) :
    ((∃ msg, constructorStep opts g = Except.error msg) ↔
      hasDb opts = false) ∧
    (hasDb opts = true → ∃ out, constructorStep opts g = Except.ok out) ∧
    (initCompletion g (some e) = { g with initPromiseActive := false }) ∧
    ((initCompletion g (some e)).isInitialized = g.isInitialized) ∧
    (initializeDb r1 r2 = some e → errIsAlreadyExists e = false) ∧
    (g.isInitialized = false →
      (guardStep (initCompletion g (some e)) InitEvent.construct).2 =
        true) := by
  refine ⟨?_, ?_, rfl, rfl, ?_, ?_⟩
  · constructor
    · rintro ⟨msg, hmsg⟩
      match opts with
      | none => rfl
      | some o =>
        match hdb : o.db with
        | none => simp [hasDb, hdb]
        | some u => simp [constructorStep, hdb] at hmsg
    · intro h
      match opts with
      | none => exact ⟨"BunSQLStore: db instance required", rfl⟩
      | some o =>
        match hdb : o.db with
        | none =>
          exact ⟨"BunSQLStore: db instance required",
            by simp [constructorStep, hdb]⟩
        | some u => simp [hasDb, hdb] at h
  · intro h
    match opts with
    | none => simp [hasDb] at h
    | some o =>
      match hdb : o.db with
      | none => simp [hasDb, hdb] at h
      | some u =>
        exact ⟨(resolveTtl o.ttl, (guardStep g InitEvent.construct).1,
          (guardStep g InitEvent.construct).2), by simp [constructorStep, hdb]⟩
  · intro hinit
    unfold initializeDb at hinit
    rcases r1 with _ | e1
    · rcases r2 with _ | e2
      · exact Option.noConfusion
          (show (none : Option DbError) = some e from hinit)
      · have hinit' :
            (if errIsAlreadyExists e2 = true then none else some e2) =
              some e := hinit
        by_cases ha2 : errIsAlreadyExists e2 = true
        · rw [if_pos ha2] at hinit'
          exact Option.noConfusion hinit'
        · rw [if_neg ha2] at hinit'
          injection hinit' with heq
          subst heq
          simpa using ha2
    · rcases r2 with _ | e2
      · have hinit1 :
            (if errIsAlreadyExists e1 = true then none else some e1) =
              some e := hinit
        by_cases ha1 : errIsAlreadyExists e1 = true
        · rw [if_pos ha1] at hinit1
          exact Option.noConfusion hinit1
        · rw [if_neg ha1] at hinit1
          injection hinit1 with heq
          subst heq
          simpa using ha1
      · have hinit1 :
            (if errIsAlreadyExists e1 = true then
              (if errIsAlreadyExists e2 = true then none else some e2)
            else some e1) = some e := hinit
        by_cases ha1 : errIsAlreadyExists e1 = true
        · rw [if_pos ha1] at hinit1
          by_cases ha2 : errIsAlreadyExists e2 = true
          · rw [if_pos ha2] at hinit1
            exact Option.noConfusion hinit1
          · rw [if_neg ha2] at hinit1
            injection hinit1 with heq
            subst heq
            simpa using ha2
        · rw [if_neg ha1] at hinit1
          injection hinit1 with heq
          subst heq
          simpa using ha1
  · intro h
    simp [initCompletion, guardStep, h]

theorem c8_constructor_errors_witness :
    hasDb (some ⟨some (), none⟩) = true ∧
    (∃ out, constructorStep (some ⟨some (), none⟩) ⟨false, false⟩ =
      Except.ok out) :=
  ⟨by decide,
    (c8_constructor_errors (some ⟨some (), none⟩) ⟨false, false⟩
      ⟨some "boom"⟩ none none).2.1 (by decide)⟩

end BunSQLStore
